/-
Verification development for the Amplify access-log downloader.

The embedding below follows src/local/amplify_logs.py (class
AmplifyLogDownloader) and, for the retry/backoff loop, the lambda
implementation in
src/amplify-stack-backup/extracted_lambda/.../lambda_function.py
(download_amplify_logs / handle_large_time_range).

Modelling conventions:
  - timestamps are naturals counting seconds (datetime at second
    granularity); a calendar date is its day number, so midnight of
    day d is d * 86400 and 23:59:59 of day d is d * 86400 + 86399;
  - the effectful collaborators (the AWS CLI call, the HTTP fetch of
    the log URL, the local file write, the S3 upload) are oracles
    passed in as functions; a run records its outwardly visible
    effects in a Trace value threaded through the recursion;
  - Python exceptions raised by a collaborator and caught by the code
    are modelled by the oracle answer that the corresponding handler
    produces (get_amplify_logs catches everything and returns None;
    upload_to_s3 catches everything, bumps the upload-failure counter
    and returns False; an exception escaping save_logs_locally is
    caught by the try/except of process_time_range, which yields
    (False, False) for the leaf).
-/
import Mathlib

namespace AmplifyLogs

/-- Values that get_amplify_logs can hand to process_time_range: either the
raw log body (a Python str, possibly empty, and also the sentinel
"REDUCE_RANGE"), or the parsed JSON response dictionary returned when the
response carries no logUrl (amplify_logs.py line 124). -/
inductive PyVal where
  | str (s : String)
  | dict (fields : List (String × String))
deriving DecidableEq

/-- Emptiness test used by save_logs_locally (line 157) and
process_time_range (line 279): logs == "" if isinstance(logs, str) else
False. -/
def pyIsEmpty : PyVal → Bool
  | .str s => s == ""
  | .dict _ => false

/-- save_logs_locally lines 173-176: a str payload is written verbatim,
anything else is written with json.dump. -/
def writtenAsJson : PyVal → Bool
  | .str _ => false
  | .dict _ => true

/-- Outwardly visible effects of one (possibly recursive) invocation of
process_time_range:
  - fetches: the (start, end) ranges passed to get_amplify_logs;
  - saves: the files created by save_logs_locally, as (content, timestamp);
  - uploads: the upload_to_s3 attempts, as (timestamp, succeeded);
  - uploadFailures: increments of stats[upload_failures] made inside
    upload_to_s3 (lines 233 and 238);
  - guardHits: invocations that returned at the depth guard (line 255)
    without touching the fetch primitive. -/
structure Trace where
  fetches : List (Nat × Nat) := []
  saves : List (PyVal × Nat) := []
  uploads : List (Nat × Bool) := []
  uploadFailures : Nat := 0
  guardHits : Nat := 0
deriving DecidableEq

/-- Sequential composition of traces. -/
def Trace.app (t u : Trace) : Trace :=
  { fetches := t.fetches ++ u.fetches
    saves := t.saves ++ u.saves
    uploads := t.uploads ++ u.uploads
    uploadFailures := t.uploadFailures + u.uploadFailures
    guardHits := t.guardHits + u.guardHits }

/-- Run statistics, mirroring the self.stats dictionary initialised in
AmplifyLogDownloader.__init__ (lines 69-76).  failed_ranges entries are
modelled by the raw (start, end) pair of the failed chunk. -/
structure Stats where
  total_chunks : Nat := 0
  successful_chunks : Nat := 0
  failed_chunks : Nat := 0
  empty_logs_chunks : Nat := 0
  upload_failures : Nat := 0
  failed_ranges : List (Nat × Nat) := []
deriving DecidableEq

/-- Substring test, modelling the Python `in` operator on strings:
s.splitOn pat has more than one piece exactly when pat occurs in s. -/
def containsSub (s pat : String) : Bool :=
  (s.splitOn pat).length != 1

/-- Parsed JSON response of `aws amplify generate-access-logs`; logUrl is
none when the key is absent, fields abstracts the rest of the payload. -/
structure AmplifyResponse where
  logUrl : Option String := none
  fields : List (String × String) := []
deriving DecidableEq

/-- Outcome of the subprocess call in get_amplify_logs, at the granularity
the except clauses of lines 129-141 distinguish. -/
inductive CliOutcome where
  | out (resp : AmplifyResponse)
  | emptyOut
  | cpe (stderr : String)
  | jsonErr
  | unexpected
deriving DecidableEq

/-- AmplifyLogDownloader.get_amplify_logs (amplify_logs.py lines 103-141),
as a function of the subprocess outcome and of the HTTP collaborator that
resolves a log URL to `some body` on status 200 and `none` otherwise. -/
def get_amplify_logs (cli : CliOutcome) (http : String → Option String) :
    Option PyVal :=
  match cli with
  | .out resp =>
    match resp.logUrl with
    | some url =>
      match http url with
      | some body => some (.str body)
      | none => none
    | none => some (.dict resp.fields)
  | .emptyOut => none
  | .cpe stderr =>
    if containsSub stderr ("reduce time range") then
      some (.str ("REDUCE_RANGE"))
    else
      none
  | .jsonErr => none
  | .unexpected => none

/-- Midpoint computation of process_time_range line 269:
mid_time = start_time + (end_time - start_time) // 2. -/
def mid_time (s e : Nat) : Nat := s + (e - s) / 2

/-- The two halves that process_time_range recurses on (lines 272-274):
(start_time, mid_time) and (mid_time, end_time).  Both halves contain the
midpoint instant. -/
def bisect (s e : Nat) : (Nat × Nat) × (Nat × Nat) :=
  ((s, mid_time s e), (mid_time s e, e))

/-- AmplifyLogDownloader.process_time_range (lines 241-304).  The first
Nat argument is recursion fuel; the recursion depth of the source is the
second argument and increases at each split, so fuel 4 is enough for every
start depth because the guard `depth > 2` (line 255) stops the recursion at
depth 3.  Oracles: fetchO is the result of get_amplify_logs on a range,
saveRaises tells whether save_logs_locally raises on a given payload and
timestamp (a raise is caught at lines 301-304 and yields (False, False)),
uploadO is the result of upload_to_s3 keyed by the timestamp. -/
def process_go (fetchO : Nat → Nat → Option PyVal)
    (saveRaises : PyVal → Nat → Bool) (uploadO : Nat → Bool) :
    Nat → Nat → Nat → Nat → (Bool × Bool) × Trace
  | 0, _, _, _ => ((false, false), {})
  | fuel + 1, depth, s, e =>
    if depth > 2 then
      ((false, false), { guardHits := 1 })
    else
      match fetchO s e with
      | some v =>
        if v = PyVal.str ("REDUCE_RANGE") then
          let h := bisect s e
          let r1 := process_go fetchO saveRaises uploadO fuel (depth + 1)
            h.1.1 h.1.2
          let r2 := process_go fetchO saveRaises uploadO fuel (depth + 1)
            h.2.1 h.2.2
          ((r1.1.1 || r2.1.1, r1.1.2 && r2.1.2),
            Trace.app { fetches := [(s, e)] } (Trace.app r1.2 r2.2))
        else if pyIsEmpty v then
          ((true, true), { fetches := [(s, e)] })
        else if saveRaises v e then
          ((false, false), { fetches := [(s, e)] })
        else
          ((uploadO e, false),
            { fetches := [(s, e)], saves := [(v, e)],
              uploads := [(e, uploadO e)],
              uploadFailures := if uploadO e then 0 else 1 })
      | none => ((false, false), { fetches := [(s, e)] })

/-- process_time_range with the fuel fixed at 4, which the fuel-adequacy
lemma below shows is enough at every depth. -/
def process_time_range (fetchO : Nat → Nat → Option PyVal)
    (saveRaises : PyVal → Nat → Bool) (uploadO : Nat → Bool)
    (depth s e : Nat) : (Bool × Bool) × Trace :=
  process_go fetchO saveRaises uploadO 4 depth s e

/-- Loop body of generate_time_ranges (lines 325-332), with fuel standing
for the remaining loop iterations; chunkSec is chunk_size_days converted to
seconds.  One fuel unit is consumed per iteration, so any fuel bound larger
than the number of iterations reproduces the Python while loop exactly. -/
def generate_loop (chunkSec endT : Nat) : Nat → Nat → List (Nat × Nat)
  | 0, _ => []
  | fuel + 1, cur =>
    if cur ≤ endT then
      let chunkEnd := min (cur + chunkSec - 1) endT
      (cur, chunkEnd) :: generate_loop chunkSec endT fuel (chunkEnd + 1)
    else
      []

/-- AmplifyLogDownloader.generate_time_ranges (lines 306-334).  startDay
and endDay are calendar dates as day numbers; start_time is midnight of
startDay and end_time is 23:59:59 of endDay (lines 318-320).  The fuel
endT + 2 - startT bounds the iteration count whenever chunkDays >= 1,
because every iteration advances current_start by at least one second. -/
def generate_time_ranges (chunkDays startDay endDay : Nat) :
    List (Nat × Nat) :=
  let startT := startDay * 86400
  let endT := endDay * 86400 + 86399
  generate_loop (chunkDays * 86400) endT (endT + 2 - startT) startT

/-- Initial statistics of a run of download_logs: the counters of __init__
with total_chunks set to the chunk count before the loop (lines 359-360). -/
def init_stats (ranges : List (Nat × Nat)) : Stats :=
  { total_chunks := ranges.length }

/-- One iteration of the chunk loop of download_logs (lines 364-387). -/
def download_step (fetchO : Nat → Nat → Option PyVal)
    (saveRaises : PyVal → Nat → Bool) (uploadO : Nat → Bool)
    (acc : Stats × Trace) (r : Nat × Nat) : Stats × Trace :=
  let p := process_time_range fetchO saveRaises uploadO 0 r.1 r.2
  let st := acc.1
  let st' :=
    if p.1.1 then
      { st with
        successful_chunks := st.successful_chunks + 1
        empty_logs_chunks :=
          st.empty_logs_chunks + (if p.1.2 then 1 else 0)
        upload_failures := st.upload_failures + p.2.uploadFailures }
    else
      { st with
        failed_chunks := st.failed_chunks + 1
        failed_ranges := st.failed_ranges ++ [r]
        upload_failures := st.upload_failures + p.2.uploadFailures }
  (st', Trace.app acc.2 p.2)

/-- AmplifyLogDownloader.download_logs (lines 336-393): generate the chunk
list, then fold the per-chunk loop over it, returning the final statistics
report together with the accumulated effect trace. -/
def download_logs (fetchO : Nat → Nat → Option PyVal)
    (saveRaises : PyVal → Nat → Bool) (uploadO : Nat → Bool)
    (chunkDays startDay endDay : Nat) : Stats × Trace :=
  let ranges := generate_time_ranges chunkDays startDay endDay
  List.foldl (download_step fetchO saveRaises uploadO)
    (init_stats ranges, {}) ranges

/-- Outcome of one attempt of the retry loop of the lambda
download_amplify_logs (lambda_function.py lines 171-235), at the
granularity its branches distinguish: the API returned a logUrl and the
HTTP fetch of it got status 200 or not; the API response had no logUrl;
the API raised BadRequestException with a given message; it raised
ResourceNotFoundException; or some other exception occurred. -/
inductive AttemptOutcome where
  | gotUrl (httpOk : Bool) (body : String)
  | noUrl
  | badRequest (msg : String)
  | notFound
  | otherError
deriving DecidableEq

/-- Effects of a run of the lambda downloader:
  - attempts: the generate_access_logs invocations as (start, end, retry);
  - sleeps: the time.sleep durations in order;
  - splits: the ranges on which handle_large_time_range was entered;
  - outOfFuel: number of times the model ran out of fuel (0 on every run
    the theorems below talk about; the source recursion is unbounded
    because handle_large_time_range is always re-entered at depth 0). -/
structure LTrace where
  attempts : List (Nat × Nat × Nat) := []
  sleeps : List Nat := []
  splits : List (Nat × Nat) := []
  outOfFuel : Nat := 0
deriving DecidableEq

/-- Sequential composition of lambda traces. -/
def LTrace.app (t u : LTrace) : LTrace :=
  { attempts := t.attempts ++ u.attempts
    sleeps := t.sleeps ++ u.sleeps
    splits := t.splits ++ u.splits
    outOfFuel := t.outOfFuel + u.outOfFuel }

/-- Pending call of the mutually recursive pair download_amplify_logs /
handle_large_time_range, flattened so the recursion is structural on
fuel: download s e retry is an iteration of the retry loop of
download_amplify_logs, subdivide s e depth is handle_large_time_range.
Every call site of handle_large_time_range in the source passes no depth
argument, so depth is always its default 0 in the source. -/
inductive LamCall where
  | download (s e retry : Nat)
  | subdivide (s e depth : Nat)

/-- Joint model of download_amplify_logs (lambda_function.py lines
134-243, with max_retries = 3 and retry_delay = 2) and
handle_large_time_range (lines 245-284, with max_depth = 3).  The oracle
attemptO gives the outcome of API attempt number retry on a range.
Successful leaves are reported as the range they covered, standing for
the log file written for it. -/
def lambda_run (attemptO : Nat → Nat → Nat → AttemptOutcome) :
    Nat → LamCall → List (Nat × Nat) × LTrace
  | 0, _ => ([], { outOfFuel := 1 })
  | fuel + 1, .download s e retry =>
    if retry ≥ 3 then
      ([], {})
    else
      match attemptO s e retry with
      | .gotUrl httpOk _ =>
        if httpOk then
          ([(s, e)], { attempts := [(s, e, retry)] })
        else if retry < 3 - 1 then
          let r := lambda_run attemptO fuel (.download s e (retry + 1))
          (r.1, LTrace.app
            { attempts := [(s, e, retry)], sleeps := [2 * 2 ^ retry] } r.2)
        else
          ([], { attempts := [(s, e, retry)] })
      | .noUrl =>
        ([(s, e)], { attempts := [(s, e, retry)] })
      | .badRequest msg =>
        if containsSub msg ("reduce time range") ||
            containsSub msg ("Too many records") then
          let r := lambda_run attemptO fuel (.subdivide s e 0)
          (r.1, LTrace.app { attempts := [(s, e, retry)] } r.2)
        else if retry < 3 - 1 then
          let r := lambda_run attemptO fuel (.download s e (retry + 1))
          (r.1, LTrace.app
            { attempts := [(s, e, retry)], sleeps := [2 * 2 ^ retry] } r.2)
        else
          ([], { attempts := [(s, e, retry)] })
      | .notFound =>
        ([], { attempts := [(s, e, retry)] })
      | .otherError =>
        if retry < 3 - 1 then
          let r := lambda_run attemptO fuel (.download s e (retry + 1))
          (r.1, LTrace.app
            { attempts := [(s, e, retry)], sleeps := [2 * 2 ^ retry] } r.2)
        else
          ([], { attempts := [(s, e, retry)] })
  | fuel + 1, .subdivide s e depth =>
    if depth ≥ 3 then
      ([], {})
    else
      let mid := s + (e - s) / 2
      let r1 := lambda_run attemptO fuel (.download s mid 0)
      let r2 := lambda_run attemptO fuel (.download mid e 0)
      (r1.1 ++ r2.1,
        LTrace.app { splits := [(s, e)] }
          (LTrace.app r1.2 (LTrace.app { sleeps := [1] } r2.2)))

/-- Entry point of the lambda fetch for one range (download_amplify_logs
called with the default retry budget), fuel made explicit because the
source recursion is unbounded. -/
def download_amplify_logs (attemptO : Nat → Nat → Nat → AttemptOutcome)
    (fuel s e : Nat) : List (Nat × Nat) × LTrace :=
  lambda_run attemptO fuel (.download s e 0)

/-- Transient attempt outcomes in the sense of claim C4: a failure of the
HTTP fetch of the log URL (non-200 status) or any other exception
(network error, malformed response). -/
def TransientAttempt (o : AttemptOutcome) : Prop :=
  o = .otherError ∨ ∃ b, o = .gotUrl false b

/-- Exact-partition check, written from the words of the spec for claim C6:
coversB s e l holds when l lists consecutive inclusive intervals that tile
[s, e] in chronological order, each next interval starting one second after
the previous one ends, with no gap, no overlap and no excess. -/
def coversB : Nat → Nat → List (Nat × Nat) → Bool
  | s, e, [] => s == e + 1
  | s, e, (a, b) :: rest =>
    (a == s) && decide (s ≤ b) && coversB (b + 1) e rest

/-- Check, from the words of claim C6, that every chunk except the final
one spans exactly chunkSec seconds (inclusive bounds). -/
def chunksExactB (chunkSec : Nat) : List (Nat × Nat) → Bool
  | [] => true
  | [_] => true
  | (a, b) :: r :: rest =>
    (b + 1 == a + chunkSec) && chunksExactB chunkSec (r :: rest)

/-- Storage oracle on which save_logs_locally never raises. -/
def svNever : PyVal → Nat → Bool := fun _ _ => false

/-- Upload oracle on which upload_to_s3 always succeeds. -/
def upAlways : Nat → Bool := fun _ => true

/-- Upload oracle on which upload_to_s3 always fails. -/
def upNever : Nat → Bool := fun _ => false

/-- Fetch oracle that always signals that the range must be reduced. -/
def alwaysReduce : Nat → Nat → Option PyVal :=
  fun _ _ => some (.str ("REDUCE_RANGE"))

/-- Fetch oracle on which every fetch fails (get_amplify_logs returns
None, the answer it gives when any of its collaborators raises). -/
def noneFetch : Nat → Nat → Option PyVal := fun _ _ => none

/-- Fetch oracle that always returns the same non-empty log body. -/
def dataFetch : Nat → Nat → Option PyVal :=
  fun _ _ => some (.str ("data"))

/-- Fetch oracle that always returns an explicitly empty log body. -/
def emptyFetch : Nat → Nat → Option PyVal :=
  fun _ _ => some (.str (""))

/-- Fetch oracle of the claim C1 scenario on the single chunk
(0, 86399): the full chunk signals a reduction, the first half
(0, 43199) delivers a non-empty body, the second half (43199, 86399)
fails terminally. -/
def splitHalfFetch : Nat → Nat → Option PyVal := fun s e =>
  if s == 0 && e == 86399 then some (.str ("REDUCE_RANGE"))
  else if s == 0 && e == 43199 then some (.str ("data"))
  else none

/-- Lambda attempt oracle on which every attempt raises a generic
exception. -/
def alwaysTransient : Nat → Nat → Nat → AttemptOutcome :=
  fun _ _ _ => .otherError

theorem process_go_guard (fO : Nat → Nat → Option PyVal)
    (sO : PyVal → Nat → Bool) (uO : Nat → Bool) (fuel depth s e : Nat)
    (h : 2 < depth) (hf : 1 ≤ fuel) :
    process_go fO sO uO fuel depth s e
      = ((false, false), { guardHits := 1 }) := by
  cases fuel with
  | zero => exact absurd hf (by omega)
  | succ n => simp [process_go, if_pos h]

theorem process_go_fuel (fO : Nat → Nat → Option PyVal)
    (sO : PyVal → Nat → Bool) (uO : Nat → Bool) :
    ∀ f1 f2 d s e, 1 ≤ f1 → 1 ≤ f2 → 4 ≤ f1 + d → 4 ≤ f2 + d →
      process_go fO sO uO f1 d s e = process_go fO sO uO f2 d s e := by
  intro f1
  induction f1 with
  | zero => intro f2 d s e h1; exact absurd h1 (by omega)
  | succ n ih =>
    intro f2 d s e _ h2 ha1 ha2
    cases f2 with
    | zero => exact absurd h2 (by omega)
    | succ m =>
      by_cases hd : 2 < d
      · rw [process_go_guard fO sO uO _ d s e hd (by omega),
          process_go_guard fO sO uO _ d s e hd (by omega)]
      · simp only [process_go, if_neg hd]
        cases hfv : fO s e with
        | none => rfl
        | some v =>
          by_cases hv : v = PyVal.str ("REDUCE_RANGE")
          · simp only [if_pos hv]
            rw [ih m (d + 1) (bisect s e).1.1 (bisect s e).1.2
                (by omega) (by omega) (by omega) (by omega),
              ih m (d + 1) (bisect s e).2.1 (bisect s e).2.2
                (by omega) (by omega) (by omega) (by omega)]
          · simp only [if_neg hv]

theorem reduce_run (sO : PyVal → Nat → Bool) (uO : Nat → Bool) :
    ∀ fuel d s e, 1 ≤ fuel → fuel + d = 4 →
      (process_go alwaysReduce sO uO fuel d s e).1.1 = false ∧
      (process_go alwaysReduce sO uO fuel d s e).2.guardHits
        = 2 ^ (fuel - 1) ∧
      (process_go alwaysReduce sO uO fuel d s e).2.fetches.length
        = 2 ^ (fuel - 1) - 1 := by
  intro fuel
  induction fuel with
  | zero => intro d s e h1; exact absurd h1 (by omega)
  | succ n ih =>
    intro d s e _ hsum
    by_cases hd : 2 < d
    · have hn : n = 0 := by omega
      subst hn
      rw [process_go_guard alwaysReduce sO uO _ d s e hd (by omega)]
      simp
    · have hn : 1 ≤ n := by omega
      have hpow : 2 ^ (n + 1 - 1) = 2 ^ (n - 1) + 2 ^ (n - 1) := by
        rw [Nat.add_sub_cancel]
        have h2 : 2 ^ n = 2 ^ (n - 1) * 2 := by
          rw [← pow_succ]
          congr 1
          omega
        omega
      have hpos : 1 ≤ 2 ^ (n - 1) := Nat.one_le_two_pow
      obtain ⟨ha1, ha2, ha3⟩ :=
        ih (d + 1) (bisect s e).1.1 (bisect s e).1.2 hn (by omega)
      obtain ⟨hb1, hb2, hb3⟩ :=
        ih (d + 1) (bisect s e).2.1 (bisect s e).2.2 hn (by omega)
      simp only [process_go, if_neg hd, alwaysReduce, eq_self_iff_true,
        ite_true]
      refine ⟨by simp [ha1, hb1], ?_, ?_⟩
      · simp only [Trace.app, ha2, hb2]
        omega
      · simp only [Trace.app, List.length_append, ha3, hb3,
          List.length_cons, List.length_nil]
        omega

/-- Claim C3: for every input range, if depth exceeds MAX_DEPTH (3) the
adaptive fetch returns a terminal failure immediately without calling the
fetch primitive (the trace of the invocation is a single depth-guard hit
and records no fetch); and for a fetch primitive that always signals
needs-split, the recursion terminates in terminal failure after exactly
2 ^ 3 = 8 leaf attempts (invocations that bottom out at the depth guard),
the interior of the recursion tree making the other 7 primitive calls. -/
theorem spec_c3_depth_bound :
    (∀ (fO : Nat → Nat → Option PyVal) (sO : PyVal → Nat → Bool)
        (uO : Nat → Bool) (depth s e : Nat), 3 < depth →
      process_time_range fO sO uO depth s e
        = ((false, false), { guardHits := 1 })) ∧
    (∀ (sO : PyVal → Nat → Bool) (uO : Nat → Bool) (s e : Nat),
      (process_time_range alwaysReduce sO uO 0 s e).1.1 = false ∧
      (process_time_range alwaysReduce sO uO 0 s e).2.guardHits = 8 ∧
      (process_time_range alwaysReduce sO uO 0 s e).2.fetches.length
        = 7) := by
  constructor
  · intro fO sO uO depth s e h
    exact process_go_guard fO sO uO 4 depth s e (by omega) (by omega)
  · intro sO uO s e
    have h := reduce_run sO uO 4 0 s e (by omega) (by omega)
    simpa using h

/-- Witness for claim C3 at the concrete depth 4 and range (0, 100). -/
theorem spec_c3_witness :
    process_time_range alwaysReduce svNever upAlways 4 0 100
      = ((false, false), { guardHits := 1 }) :=
  spec_c3_depth_bound.1 alwaysReduce svNever upAlways 4 0 100 (by omega)

/-- Claim C5 fails on the code: bisecting (0, 10) yields (0, 5) and
(5, 10), so the second half starts at the midpoint itself and not one
second after it, and the midpoint instant 5 lies inside both halves under
the inclusive-boundary convention the source uses for its ranges. -/
theorem spec_c5_counterexample :
    bisect 0 10 = ((0, 5), (5, 10)) ∧
    (bisect 0 10).2.1 ≠ (bisect 0 10).1.2 + 1 ∧
    (bisect 0 10).1.1 ≤ 5 ∧ 5 ≤ (bisect 0 10).1.2 ∧
    (bisect 0 10).2.1 ≤ 5 ∧ 5 ≤ (bisect 0 10).2.2 := by
  decide

/-- Claim C5 amended: for every TimeRange with start <= end, bisecting it
at the temporal midpoint yields the halves (start, mid) and (mid, end),
which are adjacent and together cover exactly the original range, but
share the midpoint instant: their overlap is exactly the one point mid
rather than being empty. -/
theorem spec_c5_amended (s e : Nat) (h : s ≤ e) :
    s ≤ mid_time s e ∧ mid_time s e ≤ e ∧
    bisect s e = ((s, mid_time s e), (mid_time s e, e)) ∧
    (∀ t, (s ≤ t ∧ t ≤ e) ↔
      ((s ≤ t ∧ t ≤ mid_time s e) ∨ (mid_time s e ≤ t ∧ t ≤ e))) ∧
    (∀ t, ((s ≤ t ∧ t ≤ mid_time s e) ∧ (mid_time s e ≤ t ∧ t ≤ e))
      ↔ t = mid_time s e) := by
  refine ⟨?_, ?_, rfl, ?_, ?_⟩
  · simp only [mid_time]
    omega
  · simp only [mid_time]
    omega
  · intro t
    simp only [mid_time]
    omega
  · intro t
    simp only [mid_time]
    omega

/-- Witness for the amended claim C5 at the concrete range (0, 10). -/
theorem spec_c5_witness :
    0 ≤ 10 ∧
    (0 ≤ mid_time 0 10 ∧ mid_time 0 10 ≤ 10 ∧
      bisect 0 10 = ((0, mid_time 0 10), (mid_time 0 10, 10)) ∧
      (∀ t, (0 ≤ t ∧ t ≤ 10) ↔
        ((0 ≤ t ∧ t ≤ mid_time 0 10) ∨ (mid_time 0 10 ≤ t ∧ t ≤ 10))) ∧
      (∀ t, ((0 ≤ t ∧ t ≤ mid_time 0 10) ∧ (mid_time 0 10 ≤ t ∧ t ≤ 10))
        ↔ t = mid_time 0 10)) :=
  ⟨by omega, spec_c5_amended 0 10 (by omega)⟩

theorem generate_loop_ne_nil_le (chunkSec endT fuel cur : Nat)
    (h : generate_loop chunkSec endT fuel cur ≠ []) : cur ≤ endT := by
  cases fuel with
  | zero => exact absurd rfl h
  | succ n =>
    by_cases hc : cur ≤ endT
    · exact hc
    · rw [generate_loop, if_neg hc] at h
      exact absurd rfl h

theorem generate_loop_covers (chunkSec : Nat) (hc : 1 ≤ chunkSec)
    (endT : Nat) :
    ∀ fuel cur, cur ≤ endT + 1 → endT + 2 ≤ fuel + cur →
      coversB cur endT (generate_loop chunkSec endT fuel cur) = true := by
  intro fuel
  induction fuel with
  | zero =>
    intro cur h1 h2
    exact absurd h2 (by omega)
  | succ n ih =>
    intro cur h1 h2
    by_cases hcur : cur ≤ endT
    · rw [generate_loop, if_pos hcur]
      have hmin : cur ≤ min (cur + chunkSec - 1) endT := by omega
      simp only [coversB, beq_self_eq_true, Bool.true_and,
        Bool.and_eq_true, decide_eq_true_eq]
      exact ⟨hmin, ih (min (cur + chunkSec - 1) endT + 1)
        (by omega) (by omega)⟩
    · rw [generate_loop, if_neg hcur]
      simp only [coversB, beq_iff_eq]
      omega

theorem generate_loop_exact (chunkSec : Nat) (hc : 1 ≤ chunkSec)
    (endT : Nat) :
    ∀ fuel cur,
      chunksExactB chunkSec (generate_loop chunkSec endT fuel cur)
        = true := by
  intro fuel
  induction fuel with
  | zero => intro cur; rfl
  | succ n ih =>
    intro cur
    by_cases hcur : cur ≤ endT
    · simp only [generate_loop, if_pos hcur]
      cases hrest : generate_loop chunkSec endT n
          (min (cur + chunkSec - 1) endT + 1) with
      | nil => rfl
      | cons r rs =>
        obtain ⟨a, b⟩ := r
        have hle : min (cur + chunkSec - 1) endT + 1 ≤ endT :=
          generate_loop_ne_nil_le chunkSec endT n _ (by rw [hrest]; simp)
        have hexact := ih (min (cur + chunkSec - 1) endT + 1)
        rw [hrest] at hexact
        simp only [chunksExactB, Bool.and_eq_true, beq_iff_eq]
        exact ⟨by omega, hexact⟩
    · rw [generate_loop, if_neg hcur]
      rfl

/-- Claim C6: for start <= end and a positive chunk size,
generate_time_ranges partitions the interval from midnight of the start
date to 23:59:59 of the end date into chronologically ordered, adjacent,
non-overlapping chunks with no gap, each chunk starting one second after
the previous one ends, every non-final chunk spanning exactly chunkDays
days; on (2024-01-01, 2024-01-31, 14) (days 19723 and 19753 of the Unix
epoch) it produces exactly the three ranges 01-01..01-14, 01-15..01-28
and 01-29..01-31. -/
theorem spec_c6_partition (chunkDays startDay endDay : Nat)
    (hc : 1 ≤ chunkDays) (hd : startDay ≤ endDay) :
    coversB (startDay * 86400) (endDay * 86400 + 86399)
      (generate_time_ranges chunkDays startDay endDay) = true ∧
    chunksExactB (chunkDays * 86400)
      (generate_time_ranges chunkDays startDay endDay) = true ∧
    generate_time_ranges 14 19723 19753 =
      [(1704067200, 1705276799), (1705276800, 1706486399),
        (1706486400, 1706745599)] := by
  refine ⟨?_, ?_, by rfl⟩
  · exact generate_loop_covers (chunkDays * 86400) (by omega)
      (endDay * 86400 + 86399) _ (startDay * 86400)
      (by nlinarith) (by omega)
  · exact generate_loop_exact (chunkDays * 86400) (by omega)
      (endDay * 86400 + 86399) _ (startDay * 86400)

/-- Witness for claim C6 at the scenario input (days 19723 and 19753,
chunk size 14). -/
theorem spec_c6_witness :
    1 ≤ 14 ∧ 19723 ≤ 19753 ∧
    (coversB (19723 * 86400) (19753 * 86400 + 86399)
        (generate_time_ranges 14 19723 19753) = true ∧
      chunksExactB (14 * 86400)
        (generate_time_ranges 14 19723 19753) = true ∧
      generate_time_ranges 14 19723 19753 =
        [(1704067200, 1705276799), (1705276800, 1706486399),
          (1706486400, 1706745599)]) :=
  ⟨by omega, by omega, spec_c6_partition 14 19723 19753 (by omega)
    (by omega)⟩

theorem process_leaf (fO : Nat → Nat → Option PyVal)
    (sO : PyVal → Nat → Bool) (uO : Nat → Bool) (s e : Nat) (v : PyVal)
    (h : fO s e = some v) (hv : v ≠ PyVal.str ("REDUCE_RANGE")) :
    process_time_range fO sO uO 0 s e =
      if pyIsEmpty v then
        ((true, true), { fetches := [(s, e)] })
      else if sO v e then
        ((false, false), { fetches := [(s, e)] })
      else
        ((uO e, false),
          { fetches := [(s, e)], saves := [(v, e)],
            uploads := [(e, uO e)],
            uploadFailures := if uO e then 0 else 1 }) := by
  unfold process_time_range
  show process_go fO sO uO (3 + 1) 0 s e = _
  simp only [process_go, h, if_neg hv]
  rfl

theorem process_none (fO : Nat → Nat → Option PyVal)
    (sO : PyVal → Nat → Bool) (uO : Nat → Bool) (s e : Nat)
    (h : fO s e = none) :
    process_time_range fO sO uO 0 s e
      = ((false, false), { fetches := [(s, e)] }) := by
  unfold process_time_range
  show process_go fO sO uO (3 + 1) 0 s e = _
  simp only [process_go, h]
  rfl

theorem process_go_succ (fO : Nat → Nat → Option PyVal)
    (sO : PyVal → Nat → Bool) (uO : Nat → Bool) (fuel depth s e : Nat) :
    process_go fO sO uO (fuel + 1) depth s e =
      (if depth > 2 then
        ((false, false), { guardHits := 1 })
      else
        match fO s e with
        | some v =>
          if v = PyVal.str ("REDUCE_RANGE") then
            let h := bisect s e
            let r1 := process_go fO sO uO fuel (depth + 1) h.1.1 h.1.2
            let r2 := process_go fO sO uO fuel (depth + 1) h.2.1 h.2.2
            ((r1.1.1 || r2.1.1, r1.1.2 && r2.1.2),
              Trace.app { fetches := [(s, e)] } (Trace.app r1.2 r2.2))
          else if pyIsEmpty v then
            ((true, true), { fetches := [(s, e)] })
          else if sO v e then
            ((false, false), { fetches := [(s, e)] })
          else
            ((uO e, false),
              { fetches := [(s, e)], saves := [(v, e)],
                uploads := [(e, uO e)],
                uploadFailures := if uO e then 0 else 1 })
        | none => ((false, false), { fetches := [(s, e)] })) := rfl

theorem process_reduce (fO : Nat → Nat → Option PyVal)
    (sO : PyVal → Nat → Bool) (uO : Nat → Bool) (s e : Nat)
    (h : fO s e = some (PyVal.str ("REDUCE_RANGE"))) :
    process_time_range fO sO uO 0 s e =
      ((((process_time_range fO sO uO 1 s (mid_time s e)).1.1 ||
          (process_time_range fO sO uO 1 (mid_time s e) e).1.1),
        ((process_time_range fO sO uO 1 s (mid_time s e)).1.2 &&
          (process_time_range fO sO uO 1 (mid_time s e) e).1.2)),
        Trace.app { fetches := [(s, e)] }
          (Trace.app (process_time_range fO sO uO 1 s (mid_time s e)).2
            (process_time_range fO sO uO 1 (mid_time s e) e).2)) := by
  unfold process_time_range
  show process_go fO sO uO (3 + 1) 0 s e = _
  rw [process_go_succ fO sO uO 3 0 s e]
  rw [if_neg (show ¬ ((0 : Nat) > 2) by omega), h]
  dsimp only
  rw [if_pos rfl]
  rw [process_go_fuel fO sO uO 3 4 1 (bisect s e).1.1 (bisect s e).1.2
      (by omega) (by omega) (by omega) (by omega),
    process_go_fuel fO sO uO 3 4 1 (bisect s e).2.1 (bisect s e).2.2
      (by omega) (by omega) (by omega) (by omega)]
  rfl

theorem download_step_eq_success (fO : Nat → Nat → Option PyVal)
    (sO : PyVal → Nat → Bool) (uO : Nat → Bool) (st : Stats) (t : Trace)
    (r : Nat × Nat)
    (h : (process_time_range fO sO uO 0 r.1 r.2).1.1 = true) :
    download_step fO sO uO (st, t) r
      = ({ st with
            successful_chunks := st.successful_chunks + 1
            empty_logs_chunks := st.empty_logs_chunks +
              (if (process_time_range fO sO uO 0 r.1 r.2).1.2 then 1
               else 0)
            upload_failures := st.upload_failures +
              (process_time_range fO sO uO 0 r.1 r.2).2.uploadFailures },
          Trace.app t (process_time_range fO sO uO 0 r.1 r.2).2) := by
  simp [download_step, h]

theorem download_step_eq_failure (fO : Nat → Nat → Option PyVal)
    (sO : PyVal → Nat → Bool) (uO : Nat → Bool) (st : Stats) (t : Trace)
    (r : Nat × Nat)
    (h : (process_time_range fO sO uO 0 r.1 r.2).1.1 = false) :
    download_step fO sO uO (st, t) r
      = ({ st with
            failed_chunks := st.failed_chunks + 1
            failed_ranges := st.failed_ranges ++ [r]
            upload_failures := st.upload_failures +
              (process_time_range fO sO uO 0 r.1 r.2).2.uploadFailures },
          Trace.app t (process_time_range fO sO uO 0 r.1 r.2).2) := by
  simp [download_step, h]

theorem empty_fold (sO : PyVal → Nat → Bool) (uO : Nat → Bool) :
    ∀ (l : List (Nat × Nat)) (st : Stats) (t : Trace),
      ((List.foldl (download_step emptyFetch sO uO) (st, t) l).1.successful_chunks = st.successful_chunks + l.length) ∧
      ((List.foldl (download_step emptyFetch sO uO) (st, t) l).1.empty_logs_chunks = st.empty_logs_chunks + l.length) ∧
      ((List.foldl (download_step emptyFetch sO uO) (st, t) l).1.failed_chunks = st.failed_chunks) ∧
      ((List.foldl (download_step emptyFetch sO uO) (st, t) l).1.upload_failures = st.upload_failures) ∧
      ((List.foldl (download_step emptyFetch sO uO) (st, t) l).1.failed_ranges = st.failed_ranges) ∧
      ((List.foldl (download_step emptyFetch sO uO) (st, t) l).1.total_chunks = st.total_chunks) ∧
      ((List.foldl (download_step emptyFetch sO uO) (st, t) l).2.saves
          = t.saves) ∧
      ((List.foldl (download_step emptyFetch sO uO) (st, t) l).2.uploads
          = t.uploads) := by
  intro l
  induction l with
  | nil => intro st t; simp
  | cons a l ih =>
    intro st t
    have hp : process_time_range emptyFetch sO uO 0 a.1 a.2
        = ((true, true), { fetches := [(a.1, a.2)] }) := by
      rw [process_leaf emptyFetch sO uO a.1 a.2 (PyVal.str ("")) rfl
        (by decide)]
      rfl
    simp only [List.foldl_cons]
    rw [download_step_eq_success emptyFetch sO uO st t a (by rw [hp]),
      hp]
    obtain ⟨h1, h2, h3, h4, h5, h6, h7, h8⟩ := ih _ _
    rw [h1, h2, h3, h4, h5, h6, h7, h8]
    simp [Trace.app]
    omega

/-- Claim C7: a chunk whose fetch returns an explicitly empty payload is
counted successful with the empty flag set, and produces no persist call:
the trace records no file save and no upload; a whole run over the
always-empty fetch oracle counts every chunk successful and empty, with
zero failures, zero upload failures and an effect trace containing no
save and no upload. -/
theorem spec_c7_empty_payload :
    (∀ (fO : Nat → Nat → Option PyVal) (sO : PyVal → Nat → Bool)
        (uO : Nat → Bool) (s e : Nat),
      fO s e = some (PyVal.str ("")) →
      process_time_range fO sO uO 0 s e
        = ((true, true), { fetches := [(s, e)] })) ∧
    (∀ (sO : PyVal → Nat → Bool) (uO : Nat → Bool)
        (chunkDays startDay endDay : Nat),
      ((download_logs emptyFetch sO uO chunkDays startDay endDay).1.successful_chunks
        = (download_logs emptyFetch sO uO chunkDays startDay endDay).1.total_chunks) ∧
      ((download_logs emptyFetch sO uO chunkDays startDay endDay).1.empty_logs_chunks
        = (download_logs emptyFetch sO uO chunkDays startDay endDay).1.total_chunks) ∧
      ((download_logs emptyFetch sO uO chunkDays startDay endDay).1.failed_chunks = 0) ∧
      ((download_logs emptyFetch sO uO chunkDays startDay endDay).1.upload_failures = 0) ∧
      ((download_logs emptyFetch sO uO chunkDays startDay endDay).2.saves = []) ∧
      ((download_logs emptyFetch sO uO chunkDays startDay endDay).2.uploads = [])) := by
  constructor
  · intro fO sO uO s e h
    rw [process_leaf fO sO uO s e (PyVal.str ("")) h (by decide)]
    rfl
  · intro sO uO chunkDays startDay endDay
    obtain ⟨h1, h2, h3, h4, h5, h6, h7, h8⟩ :=
      empty_fold sO uO (generate_time_ranges chunkDays startDay endDay)
        (init_stats (generate_time_ranges chunkDays startDay endDay)) {}
    simp only [download_logs]
    rw [h1, h2, h3, h4, h7, h8, h6]
    simp [init_stats]

/-- Witness for claim C7 at the concrete range (0, 86399). -/
theorem spec_c7_witness :
    process_time_range emptyFetch svNever upAlways 0 0 86399
      = ((true, true), { fetches := [(0, 86399)] }) :=
  spec_c7_empty_payload.1 emptyFetch svNever upAlways 0 86399 rfl

/-- Claim C2 fails on the code: on the one-chunk run whose fetch returns
the non-empty body "data" and whose upload always fails, the
upload-failure counter is incremented, but the chunk is NOT counted as a
successful fetch: process_time_range returns the upload result as the
chunk outcome (amplify_logs.py line 297), so the chunk lands in
failed_chunks and its range in failed_ranges. -/
theorem spec_c2_counterexample :
    dataFetch 0 86399 = some (PyVal.str ("data")) ∧
    pyIsEmpty (PyVal.str ("data")) = false ∧
    (download_logs dataFetch svNever upNever 14 0 0).1.upload_failures
      = 1 ∧
    (download_logs dataFetch svNever upNever 14 0 0).1.successful_chunks
      = 0 ∧
    (download_logs dataFetch svNever upNever 14 0 0).1.failed_chunks
      = 1 ∧
    (download_logs dataFetch svNever upNever 14 0 0).1.failed_ranges
      = [(0, 86399)] := by
  decide

/-- Claim C2 amended: for every chunk whose fetch returns a non-empty
payload and whose upload to storage fails, the orchestrator increments
the upload-failure counter, but counts the chunk as failed rather than
as a successful fetch: failed_chunks is incremented and the chunk range
is appended to failed_ranges, while successful_chunks is unchanged. -/
theorem spec_c2_amended (fO : Nat → Nat → Option PyVal)
    (sO : PyVal → Nat → Bool) (uO : Nat → Bool) (s e : Nat) (v : PyVal)
    (hf : fO s e = some v) (hv : v ≠ PyVal.str ("REDUCE_RANGE"))
    (hne : pyIsEmpty v = false) (hs : sO v e = false)
    (hu : uO e = false) :
    process_time_range fO sO uO 0 s e
      = ((false, false),
          { fetches := [(s, e)], saves := [(v, e)],
            uploads := [(e, false)], uploadFailures := 1 }) ∧
    (∀ (st : Stats) (t : Trace),
      (download_step fO sO uO (st, t) (s, e)).1
        = { st with
            failed_chunks := st.failed_chunks + 1
            failed_ranges := st.failed_ranges ++ [(s, e)]
            upload_failures := st.upload_failures + 1 }) := by
  have hp : process_time_range fO sO uO 0 s e
      = ((false, false),
          { fetches := [(s, e)], saves := [(v, e)],
            uploads := [(e, false)], uploadFailures := 1 }) := by
    rw [process_leaf fO sO uO s e v hf hv]
    simp [hne, hs, hu]
  refine ⟨hp, ?_⟩
  intro st t
  rw [download_step_eq_failure fO sO uO st t (s, e) (by rw [hp])]
  rw [hp]

/-- Witness for the amended claim C2 at the concrete chunk (0, 86399)
with the always-failing upload oracle. -/
theorem spec_c2_witness :
    process_time_range dataFetch svNever upNever 0 0 86399
      = ((false, false),
          { fetches := [(0, 86399)],
            saves := [(PyVal.str ("data"), 86399)],
            uploads := [(86399, false)], uploadFailures := 1 }) ∧
    (∀ (st : Stats) (t : Trace),
      (download_step dataFetch svNever upNever (st, t) (0, 86399)).1
        = { st with
            failed_chunks := st.failed_chunks + 1
            failed_ranges := st.failed_ranges ++ [(0, 86399)]
            upload_failures := st.upload_failures + 1 }) :=
  spec_c2_amended dataFetch svNever upNever 0 86399
    (PyVal.str ("data")) rfl (by decide) (by decide) rfl rfl

/-- Claim C10: a fetch result that is a parsed response dictionary
without a logUrl is classified as a non-empty success (the empty-payload
classification applies only to string payloads), is written out with
json.dump, and is persisted as a single file keyed by the end timestamp
of the range. -/
theorem spec_c10_dict_persisted (resp : AmplifyResponse)
    (http : String → Option String) (sO : PyVal → Nat → Bool)
    (uO : Nat → Bool) (s e : Nat) (hurl : resp.logUrl = none)
    (hs : sO (PyVal.dict resp.fields) e = false) (hu : uO e = true) :
    get_amplify_logs (.out resp) http
      = some (PyVal.dict resp.fields) ∧
    pyIsEmpty (PyVal.dict resp.fields) = false ∧
    writtenAsJson (PyVal.dict resp.fields) = true ∧
    process_time_range (fun _ _ => get_amplify_logs (.out resp) http)
        sO uO 0 s e
      = ((true, false),
          { fetches := [(s, e)],
            saves := [(PyVal.dict resp.fields, e)],
            uploads := [(e, true)] }) := by
  have hg : get_amplify_logs (.out resp) http
      = some (PyVal.dict resp.fields) := by
    simp [get_amplify_logs, hurl]
  refine ⟨hg, rfl, rfl, ?_⟩
  rw [process_leaf (fun _ _ => get_amplify_logs (.out resp) http) sO uO
    s e (PyVal.dict resp.fields) hg (by simp)]
  simp [pyIsEmpty, hs, hu]

/-- Witness for claim C10 on the concrete response with fields
[("status", "ok")] and no logUrl, over the range (0, 86399). -/
theorem spec_c10_witness :
    get_amplify_logs
        (.out { logUrl := none, fields := [("status", "ok")] })
        (fun _ => none)
      = some (PyVal.dict [("status", "ok")]) ∧
    pyIsEmpty (PyVal.dict [("status", "ok")]) = false ∧
    writtenAsJson (PyVal.dict [("status", "ok")]) = true ∧
    process_time_range
        (fun _ _ => get_amplify_logs
          (.out { logUrl := none, fields := [("status", "ok")] })
          (fun _ => none))
        svNever upAlways 0 0 86399
      = ((true, false),
          { fetches := [(0, 86399)],
            saves := [(PyVal.dict [("status", "ok")], 86399)],
            uploads := [(86399, true)] }) :=
  spec_c10_dict_persisted
    { logUrl := none, fields := [("status", "ok")] } (fun _ => none)
    svNever upAlways 0 86399 rfl rfl rfl

/-- Claim C1 fails on the code: on the one-chunk run (0, 86399) where
the top-level fetch signals a range reduction, the first half (0, 43199)
succeeds and the second half (43199, 86399) fails terminally, the chunk
is reported a success, but the failed half does NOT appear in the
failed-ranges list of the run statistics: failed_ranges is empty, because
download_logs records only whole top-level chunks whose processing
failed (amplify_logs.py lines 376-384) and process_time_range discards
which half of a split failed (line 276). -/
theorem spec_c1_counterexample :
    splitHalfFetch 0 86399 = some (PyVal.str ("REDUCE_RANGE")) ∧
    mid_time 0 86399 = 43199 ∧
    (process_time_range splitHalfFetch svNever upAlways 1 0 43199).1.1
      = true ∧
    (process_time_range splitHalfFetch svNever upAlways 1 43199
      86399).1.1 = false ∧
    (download_logs splitHalfFetch svNever upAlways 14 0 0).1.successful_chunks = 1 ∧
    (download_logs splitHalfFetch svNever upAlways 14 0 0).1.failed_chunks = 0 ∧
    (download_logs splitHalfFetch svNever upAlways 14 0 0).1.failed_ranges = [] := by
  decide

/-- Claim C1 amended: when the fetch of a chunk signals a range
reduction, its first bisected half ultimately succeeds and its second
half terminally fails, process_time_range reports the chunk as a
success; a successful chunk contributes nothing to the failed-ranges
list of download_logs, so the range of the failed half does not appear there
(failed_ranges records only whole top-level chunks that failed). -/
theorem spec_c1_amended (fO : Nat → Nat → Option PyVal)
    (sO : PyVal → Nat → Bool) (uO : Nat → Bool) (s e : Nat)
    (hf : fO s e = some (PyVal.str ("REDUCE_RANGE")))
    (h1 : (process_time_range fO sO uO 1 s (mid_time s e)).1.1 = true)
    (_h2 : (process_time_range fO sO uO 1 (mid_time s e) e).1.1
      = false) :
    (process_time_range fO sO uO 0 s e).1.1 = true ∧
    (∀ (st : Stats) (t : Trace) (r : Nat × Nat),
      (process_time_range fO sO uO 0 r.1 r.2).1.1 = true →
      ((download_step fO sO uO (st, t) r).1.failed_ranges
          = st.failed_ranges ∧
        (download_step fO sO uO (st, t) r).1.successful_chunks
          = st.successful_chunks + 1)) := by
  constructor
  · rw [process_reduce fO sO uO s e hf]
    simp [h1]
  · intro st t r hr
    rw [download_step_eq_success fO sO uO st t r hr]
    exact ⟨rfl, rfl⟩

/-- Witness for the amended claim C1 on the concrete split oracle where
the first half of (0, 86399) succeeds and the second half fails. -/
theorem spec_c1_witness :
    (process_time_range splitHalfFetch svNever upAlways 0 0 86399).1.1
      = true ∧
    (∀ (st : Stats) (t : Trace) (r : Nat × Nat),
      (process_time_range splitHalfFetch svNever upAlways 0 r.1
        r.2).1.1 = true →
      ((download_step splitHalfFetch svNever upAlways (st, t) r).1.failed_ranges = st.failed_ranges ∧
        (download_step splitHalfFetch svNever upAlways (st, t) r).1.successful_chunks = st.successful_chunks + 1)) :=
  spec_c1_amended splitHalfFetch svNever upAlways 0 86399 rfl
    (by decide) (by decide)

theorem fold_inv (fO : Nat → Nat → Option PyVal)
    (sO : PyVal → Nat → Bool) (uO : Nat → Bool) :
    ∀ (l : List (Nat × Nat)) (st : Stats) (t : Trace),
      ((List.foldl (download_step fO sO uO) (st, t) l).1.successful_chunks
          + (List.foldl (download_step fO sO uO) (st, t) l).1.failed_chunks
        = st.successful_chunks + st.failed_chunks + l.length) ∧
      ((List.foldl (download_step fO sO uO) (st, t) l).1.failed_ranges.length
          + st.failed_chunks
        = st.failed_ranges.length
          + (List.foldl (download_step fO sO uO) (st, t) l).1.failed_chunks) ∧
      ((List.foldl (download_step fO sO uO) (st, t) l).1.empty_logs_chunks
          + st.successful_chunks
        ≤ st.empty_logs_chunks
          + (List.foldl (download_step fO sO uO) (st, t) l).1.successful_chunks) ∧
      ((List.foldl (download_step fO sO uO) (st, t) l).1.total_chunks
        = st.total_chunks) := by
  intro l
  induction l with
  | nil => intro st t; simp
  | cons a l ih =>
    intro st t
    simp only [List.foldl_cons]
    by_cases hb : (process_time_range fO sO uO 0 a.1 a.2).1.1
    · rw [download_step_eq_success fO sO uO st t a hb]
      obtain ⟨h1, h2, h3, h4⟩ := ih
        { st with
          successful_chunks := st.successful_chunks + 1
          empty_logs_chunks := st.empty_logs_chunks +
            (if (process_time_range fO sO uO 0 a.1 a.2).1.2 then 1
             else 0)
          upload_failures := st.upload_failures +
            (process_time_range fO sO uO 0 a.1 a.2).2.uploadFailures }
        (Trace.app t (process_time_range fO sO uO 0 a.1 a.2).2)
      simp only [List.length_cons] at h1 h2 h3 h4 ⊢
      have hite : (if (process_time_range fO sO uO 0 a.1 a.2).1.2
          then 1 else 0) ≤ 1 := by
        split <;> omega
      exact ⟨by omega, by omega, by omega, by omega⟩
    · have hb' : (process_time_range fO sO uO 0 a.1 a.2).1.1 = false :=
        by simpa using hb
      rw [download_step_eq_failure fO sO uO st t a hb']
      obtain ⟨h1, h2, h3, h4⟩ := ih
        { st with
          failed_chunks := st.failed_chunks + 1
          failed_ranges := st.failed_ranges ++ [a]
          upload_failures := st.upload_failures +
            (process_time_range fO sO uO 0 a.1 a.2).2.uploadFailures }
        (Trace.app t (process_time_range fO sO uO 0 a.1 a.2).2)
      simp only [List.length_cons, List.length_append,
        List.length_nil] at h1 h2 h3 h4 ⊢
      exact ⟨by omega, by omega, by omega, by omega⟩

theorem none_fold (sO : PyVal → Nat → Bool) (uO : Nat → Bool) :
    ∀ (l : List (Nat × Nat)) (st : Stats) (t : Trace),
      ((List.foldl (download_step noneFetch sO uO) (st, t) l).1.failed_chunks = st.failed_chunks + l.length) ∧
      ((List.foldl (download_step noneFetch sO uO) (st, t) l).1.successful_chunks = st.successful_chunks) := by
  intro l
  induction l with
  | nil => intro st t; simp
  | cons a l ih =>
    intro st t
    have hp : (process_time_range noneFetch sO uO 0 a.1 a.2).1.1
        = false := by
      rw [process_none noneFetch sO uO a.1 a.2 rfl]
    simp only [List.foldl_cons]
    rw [download_step_eq_failure noneFetch sO uO st t a hp]
    obtain ⟨h1, h2⟩ := ih
      { st with
        failed_chunks := st.failed_chunks + 1
        failed_ranges := st.failed_ranges ++ [a]
        upload_failures := st.upload_failures +
          (process_time_range noneFetch sO uO 0 a.1 a.2).2.uploadFailures }
      (Trace.app t (process_time_range noneFetch sO uO 0 a.1 a.2).2)
    simp only [List.length_cons] at h1 h2 ⊢
    exact ⟨by omega, by omega⟩

/-- Claim C9: after every iteration of the chunk loop (the fold over any
initial segment of the generated chunk list) and for the final statistics
by download_logs, successful_chunks + failed_chunks equals the number of
chunks processed so far, the length of failed_ranges equals
failed_chunks, and empty_logs_chunks is at most successful_chunks. -/
theorem spec_c9_stats_invariant :
    ∀ (fO : Nat → Nat → Option PyVal) (sO : PyVal → Nat → Bool)
        (uO : Nat → Bool) (chunkDays startDay endDay k : Nat),
      ((List.foldl (download_step fO sO uO) (init_stats (generate_time_ranges chunkDays startDay endDay), {}) ((generate_time_ranges chunkDays startDay endDay).take k)).1.successful_chunks + (List.foldl (download_step fO sO uO) (init_stats (generate_time_ranges chunkDays startDay endDay), {}) ((generate_time_ranges chunkDays startDay endDay).take k)).1.failed_chunks = ((generate_time_ranges chunkDays startDay endDay).take k).length) ∧
      ((List.foldl (download_step fO sO uO) (init_stats (generate_time_ranges chunkDays startDay endDay), {}) ((generate_time_ranges chunkDays startDay endDay).take k)).1.failed_ranges.length = (List.foldl (download_step fO sO uO) (init_stats (generate_time_ranges chunkDays startDay endDay), {}) ((generate_time_ranges chunkDays startDay endDay).take k)).1.failed_chunks) ∧
      ((List.foldl (download_step fO sO uO) (init_stats (generate_time_ranges chunkDays startDay endDay), {}) ((generate_time_ranges chunkDays startDay endDay).take k)).1.empty_logs_chunks ≤ (List.foldl (download_step fO sO uO) (init_stats (generate_time_ranges chunkDays startDay endDay), {}) ((generate_time_ranges chunkDays startDay endDay).take k)).1.successful_chunks) ∧
      ((download_logs fO sO uO chunkDays startDay endDay).1.successful_chunks + (download_logs fO sO uO chunkDays startDay endDay).1.failed_chunks = (download_logs fO sO uO chunkDays startDay endDay).1.total_chunks) ∧
      ((download_logs fO sO uO chunkDays startDay endDay).1.failed_ranges.length = (download_logs fO sO uO chunkDays startDay endDay).1.failed_chunks) ∧
      ((download_logs fO sO uO chunkDays startDay endDay).1.empty_logs_chunks ≤ (download_logs fO sO uO chunkDays startDay endDay).1.successful_chunks) := by
  intro fO sO uO chunkDays startDay endDay k
  obtain ⟨p1, p2, p3, p4⟩ := fold_inv fO sO uO
    ((generate_time_ranges chunkDays startDay endDay).take k)
    (init_stats (generate_time_ranges chunkDays startDay endDay)) {}
  obtain ⟨f1, f2, f3, f4⟩ := fold_inv fO sO uO
    (generate_time_ranges chunkDays startDay endDay)
    (init_stats (generate_time_ranges chunkDays startDay endDay)) {}
  simp only [init_stats, List.length_nil] at p1 p2 p3 p4 f1 f2 f3 f4
  simp only [download_logs, init_stats]
  exact ⟨by omega, by omega, by omega, by omega, by omega, by omega⟩

/-- Claim C8: for every behaviour of the fetch and storage oracles
(including the ones modelling collaborators that raise on every call,
which surface as noneFetch answers and save or upload failures), the
chunk loop processes every generated chunk and download_logs returns a
complete statistics report: total_chunks is the full chunk count and
every chunk is accounted as either successful or failed; in particular,
when every fetch fails, the report still comes back with all chunks
failed and none successful. -/
theorem spec_c8_no_abort :
    ∀ (fO : Nat → Nat → Option PyVal) (sO : PyVal → Nat → Bool)
        (uO : Nat → Bool) (chunkDays startDay endDay : Nat),
      ((download_logs fO sO uO chunkDays startDay endDay).1.total_chunks = (generate_time_ranges chunkDays startDay endDay).length) ∧
      ((download_logs fO sO uO chunkDays startDay endDay).1.successful_chunks + (download_logs fO sO uO chunkDays startDay endDay).1.failed_chunks = (download_logs fO sO uO chunkDays startDay endDay).1.total_chunks) ∧
      ((download_logs noneFetch sO uO chunkDays startDay endDay).1.failed_chunks = (download_logs noneFetch sO uO chunkDays startDay endDay).1.total_chunks) ∧
      ((download_logs noneFetch sO uO chunkDays startDay endDay).1.successful_chunks = 0) := by
  intro fO sO uO chunkDays startDay endDay
  obtain ⟨f1, f2, f3, f4⟩ := fold_inv fO sO uO
    (generate_time_ranges chunkDays startDay endDay)
    (init_stats (generate_time_ranges chunkDays startDay endDay)) {}
  obtain ⟨n1, n2⟩ := none_fold sO uO
    (generate_time_ranges chunkDays startDay endDay)
    (init_stats (generate_time_ranges chunkDays startDay endDay)) {}
  obtain ⟨g1, g2, g3, g4⟩ := fold_inv noneFetch sO uO
    (generate_time_ranges chunkDays startDay endDay)
    (init_stats (generate_time_ranges chunkDays startDay endDay)) {}
  simp only [init_stats] at f1 f2 f3 f4 n1 n2 g1 g2 g3 g4
  simp only [download_logs, init_stats]
  exact ⟨by omega, by omega, by omega, by omega⟩

theorem lambda_step (attemptO : Nat → Nat → Nat → AttemptOutcome)
    (fuel s e retry : Nat) (hr : ¬ retry ≥ 3)
    (ht : TransientAttempt (attemptO s e retry)) :
    lambda_run attemptO (fuel + 1) (.download s e retry)
      = if retry < 3 - 1 then
          ((lambda_run attemptO fuel (.download s e (retry + 1))).1,
            LTrace.app
              { attempts := [(s, e, retry)], sleeps := [2 * 2 ^ retry] }
              (lambda_run attemptO fuel (.download s e (retry + 1))).2)
        else
          ([], { attempts := [(s, e, retry)] }) := by
  rcases ht with h | ⟨b, h⟩ <;>
    simp [lambda_run, h, if_neg hr]

/-- Claim C4: on a range for which every fetch attempt fails transiently
(a network or parse error, or a non-200 status on the log URL download),
the lambda fetcher retries the same range with exponential backoff
retry_delay * 2 ^ attempt = 2, 4, makes exactly MAX_RETRIES = 3
attempts, then gives up for this leaf, returning no log file and without
ever subdividing the range. -/
theorem spec_c4_retry_bound (attemptO : Nat → Nat → Nat → AttemptOutcome)
    (fuel s e : Nat)
    (h : ∀ r, r < 3 → TransientAttempt (attemptO s e r)) :
    download_amplify_logs attemptO (fuel + 3) s e
      = ([], { attempts := [(s, e, 0), (s, e, 1), (s, e, 2)],
               sleeps := [2 * 2 ^ 0, 2 * 2 ^ 1] }) := by
  unfold download_amplify_logs
  show lambda_run attemptO (fuel + 2 + 1) (.download s e 0) = _
  rw [lambda_step attemptO (fuel + 2) s e 0 (by omega) (h 0 (by omega))]
  rw [if_pos (by omega)]
  show (((lambda_run attemptO (fuel + 1 + 1) (.download s e 1)).1, _) :
    List (Nat × Nat) × LTrace) = _
  rw [lambda_step attemptO (fuel + 1) s e 1 (by omega) (h 1 (by omega))]
  rw [if_pos (by omega)]
  show (((lambda_run attemptO (fuel + 1) (.download s e 2)).1, _) :
    List (Nat × Nat) × LTrace) = _
  rw [lambda_step attemptO fuel s e 2 (by omega) (h 2 (by omega))]
  rw [if_neg (by omega)]
  simp [LTrace.app]

/-- Witness for claim C4: the always-raising attempt oracle on the range
(0, 100) with fuel 3. -/
theorem spec_c4_witness :
    download_amplify_logs alwaysTransient 3 0 100
      = ([], { attempts := [(0, 100, 0), (0, 100, 1), (0, 100, 2)],
               sleeps := [2, 4] }) := by
  have h := spec_c4_retry_bound alwaysTransient 0 0 100
    (fun r _ => Or.inl rfl)
  simpa using h

end AmplifyLogs
